import Mathlib

/-!
Shallow embedding of the Barcelona/Catalan IFC space-compliance checker
(`tools/checker_barcelona_compliance.py`) and the column-clipping helper of
the report renderer (`tools/checker_ifc_parser.py`).

Text is modelled as Lean `String`/`List Char`; Python floats are modelled as
exact rationals (every numeric literal in the checker is exactly
representable, and the checker performs only comparison, division and
decimal rounding); the loosely-typed IFC value universe is a small tagged
union; the entity/property graph is an inductive data model mirroring the
attributes the checker reads.
-/

/-! ### Text normalisation (`_norm_text`)

The Python code relies on `str.strip`, `str.lower`, `unicodedata.normalize
("NFKD", ·)` and `unicodedata.combining`.  We model the Unicode tables on a
representative character universe: ASCII, the Latin accented letters used by
the Catalan keyword lists, and the combining marks their NFKD decompositions
produce.  All other characters are fixed points of the tables, matching
Unicode for every character outside the modelled set that the repository's
data can contain. -/

/-- Whitespace characters stripped by Python `str.strip` (common subset). -/
def isPySpace (c : Char) : Bool :=
  c == ' ' || c == '\t' || c == '\n' || c == '\x0d' || c == '\x0b' || c == '\x0c' || c == '\xa0'

/-- Combining diacritical marks (U+0300–U+036F), as recognised by
`unicodedata.combining`. -/
def isCombining (c : Char) : Bool :=
  0x300 ≤ c.toNat && c.toNat ≤ 0x36f

/-- Lower-casing table for `str.lower` on the modelled character universe. -/
def lowerTable : List (Char × Char) :=
  [('A', 'a'), ('B', 'b'), ('C', 'c'), ('D', 'd'), ('E', 'e'), ('F', 'f'),
   ('G', 'g'), ('H', 'h'), ('I', 'i'), ('J', 'j'), ('K', 'k'), ('L', 'l'),
   ('M', 'm'), ('N', 'n'), ('O', 'o'), ('P', 'p'), ('Q', 'q'), ('R', 'r'),
   ('S', 's'), ('T', 't'), ('U', 'u'), ('V', 'v'), ('W', 'w'), ('X', 'x'),
   ('Y', 'y'), ('Z', 'z'),
   ('À', 'à'), ('Ç', 'ç'), ('É', 'é'), ('È', 'è'), ('Í', 'í'), ('Ó', 'ó'), ('Ú', 'ú')]

/-- `str.lower` on one character. -/
def pyLower (c : Char) : Char :=
  ((lowerTable.find? (fun p => p.1 == c)).map Prod.snd).getD c

/-- NFKD decompositions of the modelled pre-composed characters. -/
def nfkdTable : List (Char × List Char) :=
  [('à', ['a', '\u0300']), ('ç', ['c', '\u0327']), ('é', ['e', '\u0301']),
   ('è', ['e', '\u0300']), ('í', ['i', '\u0301']), ('ó', ['o', '\u0301']),
   ('ú', ['u', '\u0301']),
   ('À', ['A', '\u0300']), ('Ç', ['C', '\u0327']), ('É', ['E', '\u0301']),
   ('È', ['E', '\u0300']), ('Í', ['I', '\u0301']), ('Ó', ['O', '\u0301']),
   ('Ú', ['U', '\u0301'])]

/-- NFKD decomposition of one character. -/
def nfkdChar (c : Char) : List Char :=
  ((nfkdTable.find? (fun p => p.1 == c)).map Prod.snd).getD [c]

/-- Python `str.strip` on a character list. -/
def pyStrip (l : List Char) : List Char :=
  ((l.dropWhile isPySpace).reverse.dropWhile isPySpace).reverse

/-- The `_norm_text` pipeline on a character list:
`strip`, then `lower`, then NFKD, then drop combining marks. -/
def normTextL (l : List Char) : List Char :=
  ((((pyStrip l).map pyLower).flatMap nfkdChar).filter (fun c => !isCombining c))

/-- `_norm_text`: `None` maps to the empty string, a string is
stripped, lower-cased, NFKD-decomposed and purged of combining marks. -/
def norm_text (value : Option String) : String :=
  match value with
  | none => ""
  | some s => ⟨normTextL s.data⟩

/-! ### Numeric coercion (`_to_float`)

Python values reaching `_to_float` are modelled as a tagged union: `None`,
plain numbers (exact rationals), strings (on which the builtin `float`
attempts a decimal parse), objects carrying a `wrappedValue` attribute, and
arbitrary non-numeric objects. -/

/-- The loosely-typed value universe seen by the checker. -/
inductive IfcValue where
  | vnone : IfcValue
  | vnum (q : ℚ) : IfcValue
  | vstr (s : String) : IfcValue
  | vwrapped (inner : IfcValue) : IfcValue
  | vother : IfcValue
deriving DecidableEq

/-- Value of a digit list, most significant first. -/
def digitsVal (l : List Char) : Nat :=
  l.foldl (fun n c => n * 10 + (c.toNat - 48)) 0

/-- Split a character list at the first dot. -/
def splitAtDot : List Char → (List Char × Option (List Char))
  | [] => ([], none)
  | c :: rest =>
    if c == '.' then ([], some rest)
    else
      let (ip, fp) := splitAtDot rest
      (c :: ip, fp)

/-- The builtin `float` applied to a string: surrounding whitespace is
ignored; a sign, decimal digits and at most one dot are accepted (the
repository never feeds exponent or infinity forms to it). -/
def parseFloatStr (s : String) : Option ℚ :=
  let l := pyStrip s.data
  let signed : Bool × List Char :=
    match l with
    | '-' :: t => (true, t)
    | '+' :: t => (false, t)
    | t => (false, t)
  let core : Option ℚ :=
    match splitAtDot signed.2 with
    | (ip, none) =>
      if !ip.isEmpty && ip.all Char.isDigit then some (digitsVal ip : ℚ) else none
    | (ip, some fp) =>
      if (!ip.isEmpty || !fp.isEmpty) && ip.all Char.isDigit && fp.all Char.isDigit
          && !fp.contains '.' then
        some (mkRat (digitsVal ip * 10 ^ fp.length + digitsVal fp) (10 ^ fp.length))
      else none
  core.map (fun q => if signed.1 then -q else q)

/-- The builtin `float(value)` as an option: numbers convert, strings are
parsed, everything else raises (modelled as `none`). -/
def floatBuiltin : IfcValue → Option ℚ
  | .vnum q => some q
  | .vstr s => parseFloatStr s
  | _ => none

/-- `getattr(value, "wrappedValue", None)`: only wrapper objects expose the
attribute. -/
def wrappedValueOf : IfcValue → Option IfcValue
  | .vwrapped inner => some inner
  | _ => none

/-- `_to_float`: best-effort conversion — `None` maps to `none`, then
`float(value)`, then `float(value.wrappedValue)` when the attribute exists,
and `none` on any remaining failure. -/
def to_float (value : IfcValue) : Option ℚ :=
  match value with
  | .vnone => none
  | v =>
    match floatBuiltin v with
    | some q => some q
    | none =>
      match wrappedValueOf v with
      | some w => floatBuiltin w
      | none => none

/-! ### Data model of spaces and linked property definitions -/

/-- One quantity inside an `IfcElementQuantity`: the checker only inspects
whether it `is_a` `IfcQuantityArea` or `IfcQuantityLength`, its `Name`, and
its `AreaValue`/`LengthValue`.  `qnone` models a `None` entry in the
`Quantities` list; `qother` models any other quantity class. -/
inductive Qty where
  | qarea (name : Option String) (areaValue : IfcValue) : Qty
  | qlength (name : Option String) (lengthValue : IfcValue) : Qty
  | qnone : Qty
  | qother : Qty
deriving DecidableEq

/-- One property inside an `IfcPropertySet`: a `Name` and a `NominalValue`. -/
structure PropItem where
  name : Option String
  nominalValue : IfcValue
deriving DecidableEq

/-- A `RelatingPropertyDefinition`: either an `IfcElementQuantity` with its
`Quantities`, an `IfcPropertySet` with its `HasProperties`, or any other
definition class (skipped by both extraction passes). -/
inductive PropDef where
  | elementQuantity (quantities : List Qty) : PropDef
  | propertySet (hasProperties : List PropItem) : PropDef
  | otherDef : PropDef
deriving DecidableEq

/-- One entry of a space's `IsDefinedBy` inverse attribute:
`definesByProperties pd` is an `IfcRelDefinesByProperties` whose
`RelatingPropertyDefinition` is `pd` (`none` when that attribute is unset);
`otherRel` covers every other relationship class and `None` entries, both
skipped by `_iter_property_defs`. -/
inductive IfcRel where
  | definesByProperties (relatingPropertyDefinition : Option PropDef) : IfcRel
  | otherRel : IfcRel
deriving DecidableEq

/-- An `IfcSpace` as read by the checker: `Name`, `LongName`, `ObjectType`,
`GlobalId`, the express id (`space.id()`), and the `IsDefinedBy`
relationships. -/
structure Space where
  name : Option String
  longName : Option String
  objectType : Option String
  globalId : Option String
  id : Nat
  isDefinedBy : List IfcRel
deriving DecidableEq

/-- `_iter_property_defs`: keep the `RelatingPropertyDefinition` of each
truthy `IfcRelDefinesByProperties` entry. -/
def iter_property_defs (space : Space) : List PropDef :=
  space.isDefinedBy.filterMap fun r =>
    match r with
    | .definesByProperties pd => pd
    | .otherRel => none

/-! ### Substring matching and the space classifier (`_get_space_type`) -/

/-- `pat` is a prefix of `l` (Python-style equality on characters). -/
def prefixEq : List Char → List Char → Bool
  | [], _ => true
  | _ :: _, [] => false
  | a :: as, b :: bs => a == b && prefixEq as bs

/-- Python's `pat in hay` substring containment on character lists. -/
def containsSeq (pat : List Char) : List Char → Bool
  | [] => pat.isEmpty
  | c :: rest => prefixEq pat (c :: rest) || containsSeq pat rest

/-- Python's `pat in hay` on strings. -/
def strContains (hay pat : String) : Bool :=
  containsSeq pat.data hay.data

/-- `SPACE_KEYWORDS`, in the source's (insertion-preserving) dict order. -/
def SPACE_KEYWORDS : List (String × List String) :=
  [("Living Room", ["living", "lounge", "sala", "salon", "estar", "menjador"]),
   ("Bedroom", ["bedroom", "bed", "dorm", "habitacio", "habitacio", "dormitori"]),
   ("Kitchen", ["kitchen", "cuina", "cocina"]),
   ("Bathroom", ["bath", "bathroom", "toilet", "wc", "lavabo", "aseo", "bany"]),
   ("Corridor", ["corridor", "hall", "pasillo", "passage", "rebedor", "distrib"])]

/-- `QTO_AREA_NAMES`. -/
def QTO_AREA_NAMES : List String := ["netfloorarea", "grossfloorarea", "floorarea"]

/-- `QTO_HEIGHT_NAMES`. -/
def QTO_HEIGHT_NAMES : List String := ["height", "clearheight", "netheight"]

/-- The haystack of `_get_space_type`: the three normalised name fields
joined with single spaces, in field order. -/
def spaceHaystack (space : Space) : String :=
  String.intercalate " "
    [norm_text space.name, norm_text space.longName, norm_text space.objectType]

/-- Does any keyword of the list occur in the haystack? (inner loop of
`_get_space_type`, whose early `return` is equivalent to `any`). -/
def anyKeywordIn (keywords : List String) (hay : String) : Bool :=
  keywords.any (fun kw => strContains hay kw)

/-- Outer loop of `_get_space_type`: first room type whose keyword list hits
the haystack. -/
def firstMatchingType (hay : String) : List (String × List String) → Option String
  | [] => none
  | (t, kws) :: rest =>
    if anyKeywordIn kws hay then some t else firstMatchingType hay rest

/-- `_get_space_type`: classify a space from its `Name`/`LongName`/
`ObjectType` keywords; `none` models Python's `None` (unknown). -/
def get_space_type (space : Space) : Option String :=
  firstMatchingType (spaceHaystack space) SPACE_KEYWORDS

/-! ### Quantity extraction (`_extract_area_m2`, `_extract_height_m`) -/

/-- Inner loop of extraction step 1 for area: the first `IfcQuantityArea`
whose normalised `Name` is canonical yields its `AreaValue` (the loop
`return`s `_to_float` of it immediately, coercible or not). -/
def scanAreaQuantities : List Qty → Option IfcValue
  | [] => none
  | .qarea nm v :: rest =>
    if QTO_AREA_NAMES.contains (norm_text nm) then some v
    else scanAreaQuantities rest
  | _ :: rest => scanAreaQuantities rest

/-- Step 1 of `_extract_area_m2` over the property definitions: first
canonical area quantity found in any `IfcElementQuantity`. -/
def findCanonAreaQty : List PropDef → Option IfcValue
  | [] => none
  | .elementQuantity qs :: rest =>
    match scanAreaQuantities qs with
    | some v => some v
    | none => findCanonAreaQty rest
  | _ :: rest => findCanonAreaQty rest

/-- Inner loop of extraction step 2 for area: first property whose
normalised name contains `"area"` and whose `NominalValue` coerces. -/
def scanAreaProps : List PropItem → Option ℚ
  | [] => none
  | p :: rest =>
    if strContains (norm_text p.name) "area" then
      match to_float p.nominalValue with
      | some v => some v
      | none => scanAreaProps rest
    else scanAreaProps rest

/-- Step 2 of `_extract_area_m2` over the property definitions. -/
def areaPropFallback : List PropDef → Option ℚ
  | [] => none
  | .propertySet ps :: rest =>
    match scanAreaProps ps with
    | some v => some v
    | none => areaPropFallback rest
  | _ :: rest => areaPropFallback rest

/-- `_extract_area_m2`: quantity-takeoff names first (returning
`_to_float` of the first canonical hit, even when coercion fails), then the
property-set fallback. -/
def extract_area_m2 (space : Space) : Option ℚ :=
  match findCanonAreaQty (iter_property_defs space) with
  | some v => to_float v
  | none => areaPropFallback (iter_property_defs space)

/-- Inner loop of extraction step 1 for height, over `IfcQuantityLength`. -/
def scanHeightQuantities : List Qty → Option IfcValue
  | [] => none
  | .qlength nm v :: rest =>
    if QTO_HEIGHT_NAMES.contains (norm_text nm) then some v
    else scanHeightQuantities rest
  | _ :: rest => scanHeightQuantities rest

/-- Step 1 of `_extract_height_m` over the property definitions. -/
def findCanonHeightQty : List PropDef → Option IfcValue
  | [] => none
  | .elementQuantity qs :: rest =>
    match scanHeightQuantities qs with
    | some v => some v
    | none => findCanonHeightQty rest
  | _ :: rest => findCanonHeightQty rest

/-- Inner loop of extraction step 2 for height (`"height"` keyword). -/
def scanHeightProps : List PropItem → Option ℚ
  | [] => none
  | p :: rest =>
    if strContains (norm_text p.name) "height" then
      match to_float p.nominalValue with
      | some v => some v
      | none => scanHeightProps rest
    else scanHeightProps rest

/-- Step 2 of `_extract_height_m` over the property definitions. -/
def heightPropFallback : List PropDef → Option ℚ
  | [] => none
  | .propertySet ps :: rest =>
    match scanHeightProps ps with
    | some v => some v
    | none => heightPropFallback rest
  | _ :: rest => heightPropFallback rest

/-- `_extract_height_m`: same two-step precedence with the height name set
and keyword. -/
def extract_height_m (space : Space) : Option ℚ :=
  match findCanonHeightQty (iter_property_defs space) with
  | some v => to_float v
  | none => heightPropFallback (iter_property_defs space)

/-! ### Decimal formatting and rounding

Python's `f"{v:.Nf}"` and `round(v, 2)` round half to even; on the exact
rationals of this model that is ordinary banker's rounding. -/

/-- Round a rational to the nearest integer, half to even: with
`q = num/den` and integer part `f = ⌊q⌋`, the fractional part is
`(num - f·den)/den`, compared against `1/2` by cross-multiplication. -/
def roundHalfEven (q : ℚ) : ℤ :=
  let f : ℤ := q.floor
  let rnum : ℤ := q.num - f * (q.den : ℤ)
  if 2 * rnum < (q.den : ℤ) then f
  else if (q.den : ℤ) < 2 * rnum then f + 1
  else if f % 2 = 0 then f else f + 1

/-- Exact multiplication of a rational by `10 ^ d`, on numerator and
denominator. -/
def qscale10 (q : ℚ) (d : ℕ) : ℚ :=
  mkRat (q.num * 10 ^ d) q.den

/-- Left-pad a string with zeros to the given length. -/
def padZeros (s : String) (n : Nat) : String :=
  ⟨List.replicate (n - s.length) '0' ++ s.data⟩

/-- Python `f"{q:.{digits}f}"` on an exact rational. -/
def formatFixed (q : ℚ) (digits : Nat) : String :=
  let scaled : ℤ := roundHalfEven (qscale10 q digits)
  let n : Nat := scaled.natAbs
  let ipart : Nat := n / 10 ^ digits
  let fpart : Nat := n % 10 ^ digits
  (if scaled < 0 then "-" else "") ++ toString ipart ++
    (if digits = 0 then "" else "." ++ padZeros (toString fpart) digits)

/-- Python `round(q, 2)` on an exact rational: half-even rounding of
`q·100`, divided back by 100. -/
def round2 (q : ℚ) : ℚ :=
  mkRat (roundHalfEven (qscale10 q 2)) 100

/-- `_format_decimal` with its default of 3 digits: `None` renders as
`"None"`. -/
def format_decimal (value : Option ℚ) : String :=
  match value with
  | none => "None"
  | some q => formatFixed q 3

/-! ### Rules, result records and the compliance evaluator -/

/-- One entry of `SPACE_RULES`. -/
structure Rule where
  min_height : ℚ
  min_area : ℚ
deriving DecidableEq

/-- `SPACE_RULES`, in source order (`min_height`, `min_area`; the decimal
literals 2.6, 2.3 and 1.5 written as exact fractions). -/
def SPACE_RULES : List (String × Rule) :=
  [("Living Room", ⟨mkRat 26 10, 16⟩),
   ("Bedroom", ⟨mkRat 26 10, 9⟩),
   ("Kitchen", ⟨mkRat 26 10, 8⟩),
   ("Bathroom", ⟨mkRat 23 10, 4⟩),
   ("Corridor", ⟨mkRat 23 10, mkRat 15 10⟩)]

/-- `SPACE_RULES.get(space_type)`. -/
def lookupRule (t : String) : Option Rule :=
  SPACE_RULES.lookup t

/-- The machine-readable `log` payload of a per-space record
(`structured_output`, serialised by `json.dumps` in the source; modelled
structurally). -/
structure SpaceLog where
  space : String
  space_type : Option String
  area_m2 : Option ℚ
  height_m : Option ℚ
  min_area_m2 : Option ℚ
  min_height_m : Option ℚ
  status : String
  reasons : List String
deriving DecidableEq

/-- The machine-readable `log` payload of the summary record. -/
structure SummaryLog where
  total_spaces_input : Nat
  total_spaces_checked : Nat
  passed_count : Nat
  failed_count : Nat
  warnings_count : Nat
  compliance_rate_percent : ℚ
deriving DecidableEq

/-- A record's `log` field: one of the two serialised payload shapes. -/
inductive LogData where
  | spaceLog (data : SpaceLog) : LogData
  | summaryLog (data : SummaryLog) : LogData
deriving DecidableEq

/-- The canonical result-record schema built by `_result`. -/
structure ResultRecord where
  element_id : Option String
  element_type : String
  element_name : String
  element_name_long : Option String
  check_status : String
  actual_value : String
  required_value : String
  comment : Option String
  log : Option LogData
deriving DecidableEq

/-- Reason 1/2 of the evaluator: classification and rule lookup. -/
def typeReasons (spaceType : Option String) : List String :=
  match spaceType with
  | none => ["Could not infer space type"]
  | some t =>
    match lookupRule t with
    | none => ["Unrecognized space type: " ++ t]
    | some _ => []

/-- `required_area` as set by the evaluator (only when a rule exists). -/
def requiredAreaOf (spaceType : Option String) : Option ℚ :=
  match spaceType with
  | none => none
  | some t => (lookupRule t).map Rule.min_area

/-- `required_height` as set by the evaluator. -/
def requiredHeightOf (spaceType : Option String) : Option ℚ :=
  match spaceType with
  | none => none
  | some t => (lookupRule t).map Rule.min_height

/-- Reason 3 of the evaluator: area missing or below threshold. -/
def areaReasons (area requiredArea : Option ℚ) : List String :=
  match area with
  | none => ["Area not found."]
  | some a =>
    match requiredArea with
    | some ra =>
      if a < ra then
        ["Area " ++ formatFixed a 3 ++ " m2 < required " ++ formatFixed ra 3 ++ " m2."]
      else []
    | none => []

/-- Reason 4 of the evaluator: height missing or below threshold. -/
def heightReasons (height requiredHeight : Option ℚ) : List String :=
  match height with
  | none => ["Height not found."]
  | some h =>
    match requiredHeight with
    | some rh =>
      if h < rh then
        ["Height " ++ formatFixed h 3 ++ " m < required " ++ formatFixed rh 3 ++ " m."]
      else []
    | none => []

/-- The ordered reasons list accumulated by the four checks of the
evaluator loop, before the PASS replacement. -/
def spaceReasons (space : Space) : List String :=
  typeReasons (get_space_type space)
    ++ areaReasons (extract_area_m2 space) (requiredAreaOf (get_space_type space))
    ++ heightReasons (extract_height_m space) (requiredHeightOf (get_space_type space))

/-- `is_pass`: the verdict of one space. -/
def spacePasses (space : Space) : Bool :=
  (spaceReasons space).isEmpty

/-- The reasons list actually emitted: on PASS the accumulated (empty) list
is replaced by the single canned satisfied-message. -/
def finalReasons (space : Space) : List String :=
  if spacePasses space then ["Meets minimum area and height requirements."]
  else spaceReasons space

/-- `name = getattr(space, "Name", None) or f"IfcSpace #{space.id()}"`. -/
def displayName (space : Space) : String :=
  match space.name with
  | some s => if s.isEmpty then "IfcSpace #" ++ toString space.id else s
  | none => "IfcSpace #" ++ toString space.id

/-- `str(long_name) if long_name else None`. -/
def displayLongName (space : Space) : Option String :=
  match space.longName with
  | some s => if s.isEmpty then none else some s
  | none => none

/-- The `structured_output` log payload of one space. -/
def spaceLogOf (space : Space) : SpaceLog :=
  { space := displayName space
    space_type := get_space_type space
    area_m2 := extract_area_m2 space
    height_m := extract_height_m space
    min_area_m2 := requiredAreaOf (get_space_type space)
    min_height_m := requiredHeightOf (get_space_type space)
    status := if spacePasses space then "PASS" else "FAIL"
    reasons := finalReasons space }

/-- The per-space result record built by the evaluator loop. -/
def spaceRecord (space : Space) : ResultRecord :=
  { element_id := space.globalId
    element_type := "IfcSpace"
    element_name := displayName space
    element_name_long := displayLongName space
    check_status := if spacePasses space then "pass" else "fail"
    actual_value :=
      "space_type=" ++ ((get_space_type space).getD "unknown")
        ++ ", area_m2=" ++ format_decimal (extract_area_m2 space)
        ++ ", height_m=" ++ format_decimal (extract_height_m space)
    required_value :=
      "min_area_m2=" ++ format_decimal (requiredAreaOf (get_space_type space))
        ++ ", min_height_m=" ++ format_decimal (requiredHeightOf (get_space_type space))
    comment := some (String.intercalate "; " (finalReasons space))
    log := some (.spaceLog (spaceLogOf space)) }

/-- `passed` counter after the loop. -/
def passedCount (spaces : List Space) : Nat :=
  (spaces.filter spacePasses).length

/-- `failed` counter after the loop. -/
def failedCount (spaces : List Space) : Nat :=
  (spaces.filter (fun sp => !spacePasses sp)).length

/-- `compliance_rate` before rounding: `passed / checked * 100` (as the
exact fraction `passed·100 / checked`) with the zero-checked convention. -/
def complianceRate (spaces : List Space) : ℚ :=
  if spaces.length > 0 then
    mkRat (passedCount spaces * 100) spaces.length
  else 0

/-- The `summary` log payload. -/
def summaryLogOf (spaces : List Space) : SummaryLog :=
  { total_spaces_input := spaces.length
    total_spaces_checked := spaces.length
    passed_count := passedCount spaces
    failed_count := failedCount spaces
    warnings_count := 0
    compliance_rate_percent := round2 (complianceRate spaces) }

/-- The single summary record appended after the per-space records. -/
def summaryRecord (spaces : List Space) : ResultRecord :=
  { element_id := none
    element_type := "Summary"
    element_name := "Barcelona Space Compliance Summary"
    element_name_long := none
    check_status := if failedCount spaces = 0 then "pass" else "fail"
    actual_value :=
      "checked=" ++ toString spaces.length
        ++ ", passed=" ++ toString (passedCount spaces)
        ++ ", failed=" ++ toString (failedCount spaces)
        ++ ", warnings=0, rate=" ++ formatFixed (complianceRate spaces) 2 ++ "%"
    required_value :=
      "All checked spaces should meet minimum area and height by inferred space type"
    comment :=
      some (if spaces.length = 0 then "No IfcSpace elements found"
            else "Computed from provided Barcelona rules")
    log := some (.summaryLog (summaryLogOf spaces)) }

/-- `check_barcelona_space_compliance`: one record per `IfcSpace` of the
model (in model order), followed by the summary record.  The model argument
is the list `model.by_type("IfcSpace")` supplied by the external
model-loading collaborator. -/
def check_barcelona_space_compliance (spaces : List Space) : List ResultRecord :=
  spaces.map spaceRecord ++ [summaryRecord spaces]

/-! ### Report renderer helpers (`checker_ifc_parser.py`) -/

/-- `_to_text`: `None` renders as the empty string. -/
def to_text (value : Option String) : String :=
  value.getD ""

/-- Python slice `l[:n]` with its negative-index semantics. -/
def pySliceTo (l : List Char) (n : ℤ) : List Char :=
  if n < 0 then l.take (l.length - min l.length n.natAbs)
  else l.take n.toNat

/-- `_clip` (identical local helper of `_build_parse_section` and
`_build_compliance_section`): values at most `width` characters long pass
through, longer ones are cut to `text[: width - 3]` plus `"..."`. -/
def clip (value : Option String) (width : Nat) : String :=
  let text := to_text value
  if text.length ≤ width then text
  else ⟨pySliceTo text.data ((width : ℤ) - 3)⟩ ++ "..."

/-! ### Decimal literals

Claim statements use Python's decimal notation; this helper identifies such
a literal with its exact fraction, so that concrete goals can be settled by
kernel evaluation. -/

/-- A positive decimal `ℚ` literal is the exact fraction `m / 10 ^ e`. -/
theorem ratSciLit (m e : ℕ) :
    (OfScientific.ofScientific m true e : ℚ) = mkRat m (10 ^ e) :=
  Rat.ofScientific_true_def

/-! ### Concrete example spaces used by the claim theorems -/

/-- Entity with both a canonical area quantity (18.5) and an area-named
property (99.0). -/
def exBothC2 : Space :=
  { name := some "Space A", longName := none, objectType := none,
    globalId := some "G1", id := 1,
    isDefinedBy :=
      [.definesByProperties (some (.elementQuantity
         [.qarea (some "NetFloorArea") (.vnum (mkRat 37 2))])),
       .definesByProperties (some (.propertySet
         [⟨some "Area (gross)", .vnum 99⟩]))] }

/-- Entity with only the area-named property (99.0). -/
def exPropOnlyC2 : Space :=
  { exBothC2 with isDefinedBy :=
      [.definesByProperties (some (.propertySet
         [⟨some "Area (gross)", .vnum 99⟩]))] }

/-- Entity with both a canonical height quantity (3.1) and a height-named
property (7.7). -/
def exHBothC2 : Space :=
  { exBothC2 with isDefinedBy :=
      [.definesByProperties (some (.elementQuantity
         [.qlength (some "Height") (.vnum (mkRat 31 10))])),
       .definesByProperties (some (.propertySet
         [⟨some "Ceiling Height", .vnum (mkRat 77 10)⟩]))] }

/-- Entity with only the height-named property (2.2). -/
def exHPropOnlyC2 : Space :=
  { exBothC2 with isDefinedBy :=
      [.definesByProperties (some (.propertySet
         [⟨some "Ceiling Height", .vnum (mkRat 22 10)⟩]))] }

/-- Entity whose canonical area quantity holds a malformed value while an
area-named property holds 99.0. -/
def exMalformedQtyC3 : Space :=
  { exBothC2 with isDefinedBy :=
      [.definesByProperties (some (.elementQuantity
         [.qarea (some "NetFloorArea") .vother])),
       .definesByProperties (some (.propertySet
         [⟨some "Area", .vnum 99⟩]))] }

/-- Entity whose first area-named property is malformed and whose second
holds 99.0; no quantity sets. -/
def exSkipMalformedC3 : Space :=
  { exBothC2 with isDefinedBy :=
      [.definesByProperties (some (.propertySet
         [⟨some "Area A", .vother⟩, ⟨some "Area B", .vnum 99⟩]))] }

/-! ### C5: `_to_float` is a total function -/

/-- C5: numeric coercion is total — it accepts plain numbers and one level
of `wrappedValue` indirection (including wrapped numeric strings), and
returns `none` (never raises) on `None`, non-numeric objects, malformed
strings, wrapped non-numeric values and double-wrapped numbers. -/
theorem c5_to_float_total :
    (∀ q : ℚ, to_float (.vnum q) = some q)
  ∧ (∀ q : ℚ, to_float (.vwrapped (.vnum q)) = some q)
  ∧ to_float .vnone = none
  ∧ to_float .vother = none
  ∧ to_float (.vwrapped .vother) = none
  ∧ (∀ q : ℚ, to_float (.vwrapped (.vwrapped (.vnum q))) = none)
  ∧ to_float (.vstr "18.5") = some 18.5
  ∧ to_float (.vstr "abc") = none
  ∧ to_float (.vwrapped (.vstr "2.5")) = some 2.5
  ∧ to_float (.vwrapped .vnone) = none := by
  refine ⟨fun _ => rfl, fun _ => rfl, rfl, rfl, rfl, fun _ => rfl, ?_, ?_, ?_, rfl⟩
  · simp only [ratSciLit]; decide
  · decide
  · simp only [ratSciLit]; decide

/-! ### C2: strict two-step extraction precedence -/

/-- C2: extraction follows the strict two-step precedence — any canonical
quantity-set hit decides the result (quantity precedence), and the
property-set fallback is consulted exactly when step 1 finds nothing; on
the spec's example entity with both `NetFloorArea = 18.5` and
`Area (gross) = 99.0` the result is 18.5, with only the property present it
is 99.0, and the analogous facts hold for height extraction. -/
theorem c2_extractor_precedence :
    (∀ (sp : Space) (v : IfcValue),
       findCanonAreaQty (iter_property_defs sp) = some v →
       extract_area_m2 sp = to_float v)
  ∧ (∀ sp : Space,
       findCanonAreaQty (iter_property_defs sp) = none →
       extract_area_m2 sp = areaPropFallback (iter_property_defs sp))
  ∧ extract_area_m2 exBothC2 = some 18.5
  ∧ extract_area_m2 exPropOnlyC2 = some 99
  ∧ (∀ (sp : Space) (v : IfcValue),
       findCanonHeightQty (iter_property_defs sp) = some v →
       extract_height_m sp = to_float v)
  ∧ (∀ sp : Space,
       findCanonHeightQty (iter_property_defs sp) = none →
       extract_height_m sp = heightPropFallback (iter_property_defs sp))
  ∧ extract_height_m exHBothC2 = some 3.1
  ∧ extract_height_m exHPropOnlyC2 = some 2.2 := by
  refine ⟨?_, ?_, ?_, ?_, ?_, ?_, ?_, ?_⟩
  · intro sp v h; simp [extract_area_m2, h]
  · intro sp h; simp [extract_area_m2, h]
  · simp only [ratSciLit]; decide
  · decide
  · intro sp v h; simp [extract_height_m, h]
  · intro sp h; simp [extract_height_m, h]
  · simp only [ratSciLit]; decide
  · simp only [ratSciLit]; decide

/-- Witness for C2 at the concrete example entities. -/
theorem c2_extractor_precedence_witness :
    extract_area_m2 exBothC2 = to_float (.vnum (mkRat 37 2))
  ∧ extract_area_m2 exPropOnlyC2 = areaPropFallback (iter_property_defs exPropOnlyC2)
  ∧ extract_height_m exHBothC2 = to_float (.vnum (mkRat 31 10))
  ∧ extract_height_m exHPropOnlyC2 = heightPropFallback (iter_property_defs exHPropOnlyC2) :=
  ⟨c2_extractor_precedence.1 exBothC2 (.vnum (mkRat 37 2)) (by decide),
   c2_extractor_precedence.2.1 exPropOnlyC2 (by decide),
   c2_extractor_precedence.2.2.2.2.1 exHBothC2 (.vnum (mkRat 31 10)) (by decide),
   c2_extractor_precedence.2.2.2.2.2.1 exHPropOnlyC2 (by decide)⟩

/-! ### C3: behaviour on malformed candidate values -/

/-- C3 counterexample: on an entity whose canonically named area quantity
holds a malformed value while a later Property Set candidate holds the
coercible value 99.0, extraction does NOT continue scanning — it returns
absent, even though the fallback scan would have produced 99.0. -/
theorem c3_counterexample :
    extract_area_m2 exMalformedQtyC3 = none
  ∧ areaPropFallback (iter_property_defs exMalformedQtyC3) = some 99
  ∧ extract_area_m2 exMalformedQtyC3 ≠ some 99 := by
  refine ⟨by decide, by decide, by decide⟩

/-- C3 amended: the "coercion failed, continue scanning" behaviour holds
only for step 2 (Property Set) candidates — a keyword-matching property
whose value does not coerce is skipped and scanning continues, returning a
later coercible value if one exists; in step 1, the first canonically named
kind-matching quantity is final: its coercion result (possibly absent) is
returned without visiting remaining candidates or the fallback step. -/
theorem c3_step2_continue_amended :
    (∀ (p : PropItem) (rest : List PropItem),
       strContains (norm_text p.name) "area" = true →
       to_float p.nominalValue = none →
       scanAreaProps (p :: rest) = scanAreaProps rest)
  ∧ (∀ (p : PropItem) (rest : List PropItem),
       strContains (norm_text p.name) "height" = true →
       to_float p.nominalValue = none →
       scanHeightProps (p :: rest) = scanHeightProps rest)
  ∧ extract_area_m2 exSkipMalformedC3 = some 99
  ∧ (∀ (sp : Space) (v : IfcValue),
       findCanonAreaQty (iter_property_defs sp) = some v →
       extract_area_m2 sp = to_float v)
  ∧ extract_area_m2 exMalformedQtyC3 = none := by
  refine ⟨?_, ?_, by decide, ?_, by decide⟩
  · intro p rest hmatch hfail; simp [scanAreaProps, hmatch, hfail]
  · intro p rest hmatch hfail; simp [scanHeightProps, hmatch, hfail]
  · intro sp v h; simp [extract_area_m2, h]

/-- Witness for the amended C3 at concrete inputs. -/
theorem c3_step2_continue_amended_witness :
    scanAreaProps [⟨some "Area A", .vother⟩, ⟨some "Area B", .vnum 99⟩]
      = scanAreaProps [⟨some "Area B", .vnum 99⟩]
  ∧ scanHeightProps [⟨some "Height A", .vother⟩] = scanHeightProps []
  ∧ extract_area_m2 exMalformedQtyC3 = to_float .vother :=
  ⟨c3_step2_continue_amended.1 ⟨some "Area A", .vother⟩ [⟨some "Area B", .vnum 99⟩]
     (by decide) (by decide),
   c3_step2_continue_amended.2.1 ⟨some "Height A", .vother⟩ [] (by decide) (by decide),
   c3_step2_continue_amended.2.2.2.1 exMalformedQtyC3 .vother (by decide)⟩

/-! ### C10: renderer column truncation (`_clip`) -/

/-- C10 counterexample: at display width 2 (below the 3-character ellipsis
marker), the clipped cell of `"abcd"` is `"abc..."` — Python's negative
slice keeps all but the last character — so its length is 6, not the
width. -/
theorem c10_counterexample :
    clip (some "abcd") 2 = "abc..." ∧ (clip (some "abcd") 2).length ≠ 2 := by
  refine ⟨by decide, by decide⟩

/-- C10 amended: for display widths of at least 3 (every width the renderer
uses is ≥ 8), truncation is as claimed — values no longer than the width
pass through unchanged, longer ones become the first `width - 3` characters
plus `"..."`, for a total length of exactly the width.  The underlying
records are untouched: `clip` is a pure function of the cell value. -/
theorem c10_clip_amended :
    (∀ (v : Option String) (w : Nat),
       (to_text v).length ≤ w → clip v w = to_text v)
  ∧ (∀ (v : Option String) (w : Nat), 3 ≤ w → w < (to_text v).length →
       clip v w = ⟨(to_text v).data.take (w - 3)⟩ ++ "..."
         ∧ (clip v w).length = w) := by
  constructor
  · intro v w h
    simp [clip, h]
  · intro v w h3 hlt
    have hnotle : ¬ (to_text v).length ≤ w := by omega
    have harg : ¬ ((w : ℤ) - 3 < 0) := by omega
    have htonat : ((w : ℤ) - 3).toNat = w - 3 := by omega
    have hdata : (to_text v).data.length = (to_text v).length := rfl
    constructor
    · simp [clip, pySliceTo, hnotle, harg, htonat]
    · simp only [clip, pySliceTo, hnotle, if_false, if_neg harg, htonat,
        String.length_append]
      have : ((⟨((to_text v).data.take (w - 3) : List Char)⟩ : String)).length
          = ((to_text v).data.take (w - 3)).length := rfl
      rw [this, List.length_take]
      have h3len : ("..." : String).length = 3 := rfl
      rw [h3len]
      omega

/-- Witness for the amended C10 at concrete inputs. -/
theorem c10_clip_amended_witness :
    clip (some "ab") 5 = to_text (some "ab")
  ∧ (clip (some "abcdefgh") 5 = ⟨(to_text (some "abcdefgh")).data.take 2⟩ ++ "..."
       ∧ (clip (some "abcdefgh") 5).length = 5) :=
  ⟨c10_clip_amended.1 (some "ab") 5 (by decide),
   c10_clip_amended.2 (some "abcdefgh") 5 (by decide) (by decide)⟩

/-! ### Evaluator-level helpers and examples -/

/-- A Bathroom space ("Bany 1") with measured area 3.0 and height 2.5. -/
def exBathFailC1 : Space :=
  { name := some "Bany 1", longName := none, objectType := none,
    globalId := some "GBANY", id := 3,
    isDefinedBy :=
      [.definesByProperties (some (.elementQuantity
         [.qarea (some "NetFloorArea") (.vnum 3),
          .qlength (some "Height") (.vnum (mkRat 5 2))]))] }

/-- A Bathroom space with area 5.0 and height 2.5, satisfying both
thresholds. -/
def exPassC1 : Space :=
  { exBathFailC1 with isDefinedBy :=
      [.definesByProperties (some (.elementQuantity
         [.qarea (some "NetFloorArea") (.vnum 5),
          .qlength (some "Height") (.vnum (mkRat 5 2))]))] }

/-- A per-space record's status is `"fail"` exactly when the space does not
pass. -/
theorem spaceRecord_status_fail (sp : Space) :
    (spaceRecord sp).check_status = "fail" ↔ spacePasses sp = false := by
  show (if spacePasses sp then "pass" else "fail") = "fail" ↔ _
  cases h : spacePasses sp <;> simp

/-- A per-space record's status is always `"pass"` or `"fail"`. -/
theorem spaceRecord_status_pass_or_fail (sp : Space) :
    (((spaceRecord sp).check_status == "pass")
      || ((spaceRecord sp).check_status == "fail")) = true := by
  show (((if spacePasses sp then "pass" else "fail") == "pass")
      || ((if spacePasses sp then "pass" else "fail") == "fail")) = true
  cases h : spacePasses sp <;> decide

/-- Per-space records never carry the `"Summary"` element type. -/
theorem spaceRecords_no_summary (spaces : List Space) :
    (spaces.map spaceRecord).filter (fun r => r.element_type == "Summary") = [] := by
  induction spaces with
  | nil => rfl
  | cons a t ih =>
    have hne : ((spaceRecord a).element_type == "Summary") = false := by
      show (("IfcSpace" : String) == "Summary") = false
      decide
    simp [List.filter_cons, hne, ih]

/-- Splitting a list by a predicate preserves its length. -/
theorem lengthFilterSplit {α : Type} (p : α → Bool) (l : List α) :
    (l.filter p).length + (l.filter (fun a => !p a)).length = l.length := by
  induction l with
  | nil => rfl
  | cons a t ih =>
    cases h : p a <;> simp [List.filter_cons, h] <;> omega

/-! ### C1: verdict, canned message and joined reasons -/

/-- C1: the verdict is PASS exactly when the ordered reasons list is empty
after the four checks; on PASS the per-step reasons are discarded in favour
of the canned satisfied-message and on FAIL the accumulated reasons are
joined with `"; "`; the Bathroom space with area 3.0 and height 2.5 fails
with exactly the comment `"Area 3.000 m2 < required 4.000 m2."`, which
mentions no height. -/
theorem c1_evaluator_verdict :
    (∀ sp : Space, ((spaceRecord sp).check_status = "pass" ↔ spaceReasons sp = []))
  ∧ (∀ sp : Space, spaceReasons sp = [] →
       (spaceRecord sp).comment = some "Meets minimum area and height requirements.")
  ∧ (∀ sp : Space, spaceReasons sp ≠ [] →
       (spaceRecord sp).comment = some (String.intercalate "; " (spaceReasons sp)))
  ∧ get_space_type exBathFailC1 = some "Bathroom"
  ∧ extract_area_m2 exBathFailC1 = some 3.0
  ∧ extract_height_m exBathFailC1 = some 2.5
  ∧ (spaceRecord exBathFailC1).check_status = "fail"
  ∧ (spaceRecord exBathFailC1).comment = some "Area 3.000 m2 < required 4.000 m2."
  ∧ strContains "Area 3.000 m2 < required 4.000 m2." "Height" = false
  ∧ strContains "Area 3.000 m2 < required 4.000 m2." "height" = false := by
  refine ⟨?_, ?_, ?_, by decide, ?_, ?_, by decide, by decide, by decide, by decide⟩
  · intro sp
    show (if spacePasses sp then "pass" else "fail") = "pass" ↔ spaceReasons sp = []
    unfold spacePasses
    cases h : spaceReasons sp <;> simp [h]
  · intro sp h
    show some (String.intercalate "; " (finalReasons sp)) = _
    unfold finalReasons spacePasses
    rw [h]
    rfl
  · intro sp h
    show some (String.intercalate "; " (finalReasons sp)) = _
    unfold finalReasons spacePasses
    cases hr : spaceReasons sp with
    | nil => exact absurd hr h
    | cons a t => rfl
  · simp only [ratSciLit]; decide
  · simp only [ratSciLit]; decide

/-- Witness for C1 at the passing and failing Bathroom spaces. -/
theorem c1_evaluator_verdict_witness :
    (spaceRecord exPassC1).comment = some "Meets minimum area and height requirements."
  ∧ (spaceRecord exBathFailC1).comment
      = some (String.intercalate "; " (spaceReasons exBathFailC1)) :=
  ⟨c1_evaluator_verdict.2.1 exPassC1 (by decide),
   c1_evaluator_verdict.2.2.1 exBathFailC1 (by decide)⟩

/-! ### C7: exactly one summary record, after all per-entity records -/

/-- C7: the output is the per-entity records (in input order) followed by
the single summary record — so exactly one `"Summary"`-typed record exists
and it is last; the summary status is `"fail"` exactly when some per-entity
record failed, and its comment distinguishes the no-entities case from the
computed-from-entities case. -/
theorem c7_single_summary :
    ∀ spaces : List Space,
      (check_barcelona_space_compliance spaces
         = spaces.map spaceRecord ++ [summaryRecord spaces])
    ∧ ((check_barcelona_space_compliance spaces).filter
         (fun r => r.element_type == "Summary")
        = [summaryRecord spaces])
    ∧ ((summaryRecord spaces).check_status = "fail"
        ↔ ∃ r ∈ spaces.map spaceRecord, r.check_status = "fail")
    ∧ ((summaryRecord spaces).comment
        = some (if spaces.length = 0 then "No IfcSpace elements found"
                else "Computed from provided Barcelona rules")) := by
  intro spaces
  refine ⟨rfl, ?_, ?_, rfl⟩
  · show ((spaces.map spaceRecord ++ [summaryRecord spaces]).filter
        (fun r => r.element_type == "Summary")) = _
    rw [List.filter_append, spaceRecords_no_summary]
    rfl
  · have hstat : (summaryRecord spaces).check_status
        = (if failedCount spaces = 0 then "pass" else "fail") := rfl
    rw [hstat]
    constructor
    · intro hfail
      have h0 : ¬ failedCount spaces = 0 := by
        intro h0
        rw [if_pos h0] at hfail
        exact absurd hfail (by decide)
      have hne : spaces.filter (fun sp => !spacePasses sp) ≠ [] := by
        intro hnil
        exact h0 (by simp [failedCount, hnil])
      obtain ⟨sp, hsp⟩ := List.exists_mem_of_ne_nil _ hne
      rw [List.mem_filter] at hsp
      refine ⟨spaceRecord sp, List.mem_map_of_mem _ hsp.1, ?_⟩
      rw [spaceRecord_status_fail]
      simpa using hsp.2
    · rintro ⟨r, hr, hrfail⟩
      obtain ⟨sp, hsp, rfl⟩ := List.mem_map.1 hr
      rw [spaceRecord_status_fail] at hrfail
      have hmem : sp ∈ spaces.filter (fun x => !spacePasses x) :=
        List.mem_filter.2 ⟨hsp, by simp [hrfail]⟩
      have h0 : failedCount spaces ≠ 0 := by
        intro h0
        rw [failedCount, List.length_eq_zero] at h0
        rw [h0] at hmem
        exact absurd hmem (List.not_mem_nil sp)
      rw [if_neg h0]

/-- Witness for C7 at a one-element failing model. -/
theorem c7_single_summary_witness :
    (summaryRecord [exBathFailC1]).check_status = "fail" :=
  ((c7_single_summary [exBathFailC1]).2.2.1).2
    ⟨spaceRecord exBathFailC1, by decide, by decide⟩

/-! ### C8: zero-entity convention and compliance rate -/

/-- C8: a model with no spaces produces a summary whose rate is exactly 0.0
(no division error) and whose comment is the no-entities message; for a
non-empty model the rate is `passed / checked * 100` rounded (half-even) to
two decimal places. -/
theorem c8_compliance_rate :
    (summaryLogOf []).compliance_rate_percent = 0
  ∧ (summaryRecord []).comment = some "No IfcSpace elements found"
  ∧ (∀ spaces : List Space, spaces ≠ [] →
       (summaryLogOf spaces).compliance_rate_percent
         = round2 ((passedCount spaces : ℚ) / (spaces.length : ℚ) * 100)) := by
  refine ⟨by decide, rfl, ?_⟩
  intro spaces h
  have hlen : 0 < spaces.length := List.length_pos.2 h
  show round2 (complianceRate spaces) = _
  unfold complianceRate
  rw [if_pos hlen]
  congr 1
  rw [Rat.mkRat_eq_div]
  push_cast
  ring

/-- Witness for C8 at a one-element model. -/
theorem c8_compliance_rate_witness :
    (summaryLogOf [exBathFailC1]).compliance_rate_percent
      = round2 ((passedCount [exBathFailC1] : ℚ) / (([exBathFailC1] : List Space).length : ℚ) * 100) :=
  c8_compliance_rate.2.2 [exBathFailC1] (by simp)

/-! ### C9: record count and status invariants -/

/-- C9: a model with `N` spaces yields exactly `N + 1` records; every
per-entity record's status is `"pass"` or `"fail"` (never `"warning"`,
`"blocked"` or `"log"`); and in the summary's log payload,
`passed_count + failed_count = total_spaces_checked` while `warnings_count`
is always 0. -/
theorem c9_record_count_invariants :
    ∀ spaces : List Space,
      ((check_barcelona_space_compliance spaces).length = spaces.length + 1)
    ∧ ((spaces.map spaceRecord).all
         (fun r => (r.check_status == "pass") || (r.check_status == "fail")) = true)
    ∧ ((summaryLogOf spaces).passed_count + (summaryLogOf spaces).failed_count
         = (summaryLogOf spaces).total_spaces_checked)
    ∧ ((summaryLogOf spaces).warnings_count = 0) := by
  intro spaces
  refine ⟨?_, ?_, ?_, rfl⟩
  · show (spaces.map spaceRecord ++ [summaryRecord spaces]).length = _
    rw [List.length_append, List.length_map]
    rfl
  · rw [List.all_eq_true]
    intro r hr
    obtain ⟨sp, _, rfl⟩ := List.mem_map.1 hr
    exact spaceRecord_status_pass_or_fail sp
  · show passedCount spaces + failedCount spaces = spaces.length
    exact lengthFilterSplit spacePasses spaces

/-! ### C4: first-match classification -/

/-- Space named "bed bath": keywords of both Bedroom and Bathroom occur in
its haystack. -/
def exBedBathC4 : Space :=
  { name := some "bed bath", longName := none, objectType := none,
    globalId := none, id := 4, isDefinedBy := [] }

/-- Space named "Storage 01": no keyword of any room type occurs. -/
def exUnknownC4 : Space :=
  { name := some "Storage 01", longName := none, objectType := none,
    globalId := none, id := 5, isDefinedBy := [] }

/-- When the keyword scan returns a type, it is the first in list order
whose keyword list hits the haystack. -/
theorem firstMatchingType_some_first (hay : String) :
    ∀ (l : List (String × List String)) (t : String),
      firstMatchingType hay l = some t →
      ∃ pre kws post, l = pre ++ (t, kws) :: post
        ∧ anyKeywordIn kws hay = true
        ∧ ∀ p ∈ pre, anyKeywordIn p.2 hay = false := by
  intro l
  induction l with
  | nil => intro t h; exact absurd h (by simp [firstMatchingType])
  | cons a rest ih =>
    obtain ⟨t', kws⟩ := a
    intro t h
    rw [firstMatchingType] at h
    cases hm : anyKeywordIn kws hay with
    | true =>
      rw [if_pos hm] at h
      obtain rfl : t' = t := by simpa using h
      exact ⟨[], kws, rest, rfl, hm, by simp⟩
    | false =>
      rw [if_neg (by simp [hm])] at h
      obtain ⟨pre, kws', post, hl, hhit, hpre⟩ := ih t h
      refine ⟨(t', kws) :: pre, kws', post, by rw [hl]; rfl, hhit, ?_⟩
      intro p hp
      rcases List.mem_cons.1 hp with hphead | hptail
      · rw [hphead]; exact hm
      · exact hpre p hptail

/-- The keyword scan returns nothing exactly when no type's keyword list
hits the haystack. -/
theorem firstMatchingType_none_iff (hay : String) :
    ∀ l : List (String × List String),
      (firstMatchingType hay l = none ↔ ∀ p ∈ l, anyKeywordIn p.2 hay = false) := by
  intro l
  induction l with
  | nil => simp [firstMatchingType]
  | cons a rest ih =>
    obtain ⟨t', kws⟩ := a
    rw [firstMatchingType]
    cases hm : anyKeywordIn kws hay with
    | true => simp [hm]
    | false => simp [hm, ih]

/-- C4: the classifier returns the first room type, in the fixed
enumeration order of `SPACE_KEYWORDS`, any of whose keywords occurs in the
space-joined normalised haystack, and `none` (unknown) when no keyword of
any type occurs; in particular "bed bath" matches both Bedroom and Bathroom
keywords but classifies as Bedroom, and "Storage 01" is unknown. -/
theorem c4_classifier_first_match :
    (∀ (sp : Space) (t : String), get_space_type sp = some t →
       ∃ pre kws post, SPACE_KEYWORDS = pre ++ (t, kws) :: post
         ∧ anyKeywordIn kws (spaceHaystack sp) = true
         ∧ ∀ p ∈ pre, anyKeywordIn p.2 (spaceHaystack sp) = false)
  ∧ (∀ sp : Space, get_space_type sp = none ↔
       ∀ p ∈ SPACE_KEYWORDS, anyKeywordIn p.2 (spaceHaystack sp) = false)
  ∧ get_space_type exBedBathC4 = some "Bedroom"
  ∧ anyKeywordIn ["bath", "bathroom", "toilet", "wc", "lavabo", "aseo", "bany"]
      (spaceHaystack exBedBathC4) = true
  ∧ get_space_type exUnknownC4 = none := by
  refine ⟨?_, ?_, by decide, by decide, by decide⟩
  · intro sp t h
    exact firstMatchingType_some_first (spaceHaystack sp) SPACE_KEYWORDS t h
  · intro sp
    exact firstMatchingType_none_iff (spaceHaystack sp) SPACE_KEYWORDS

/-- Witness for C4 at the "bed bath" space. -/
theorem c4_classifier_first_match_witness :
    ∃ pre kws post, SPACE_KEYWORDS = pre ++ ("Bedroom", kws) :: post
      ∧ anyKeywordIn kws (spaceHaystack exBedBathC4) = true
      ∧ ∀ p ∈ pre, anyKeywordIn p.2 (spaceHaystack exBedBathC4) = false :=
  c4_classifier_first_match.1 exBedBathC4 "Bedroom" (by decide)

/-! ### C6: normaliser properties

The normalisation pipeline is NOT idempotent: stripping runs before
combining marks are removed, so a combining mark that shields trailing
whitespace from the first strip leaves whitespace that a second
normalisation removes (e.g. `"a ◌́"`).  Idempotence does hold whenever the
normalised output carries no leading or trailing whitespace, which the
following character-stability lemmas establish. -/

/-- A character left fixed by every stage of the pipeline. -/
def goodChar (c : Char) : Bool :=
  (pyLower c == c) && (nfkdChar c == [c]) && (!isCombining c)

/-- Lower-case table values are fixed points of `pyLower`. -/
theorem lowerTable_values_fixed : ∀ p ∈ lowerTable, pyLower p.2 = p.2 := by decide

/-- `pyLower` is idempotent. -/
theorem pyLower_idem (c : Char) : pyLower (pyLower c) = pyLower c := by
  cases h : lowerTable.find? (fun p => p.1 == c) with
  | none => simp [pyLower, h]
  | some p =>
    have hp : pyLower c = p.2 := by simp [pyLower, h]
    rw [hp]
    exact lowerTable_values_fixed p (List.mem_of_find?_eq_some h)

/-- Non-combining characters of a decomposition of a `pyLower`-fixed table
key are themselves pipeline-stable. -/
theorem nfkdTable_values_good :
    ∀ p ∈ nfkdTable, pyLower p.1 = p.1 →
      ∀ d ∈ p.2.filter (fun x => !isCombining x), goodChar d = true := by decide

/-- Every non-combining character of the decomposition of a lower-cased
character is pipeline-stable. -/
theorem nfkd_after_lower_good (c : Char) :
    ∀ d ∈ (nfkdChar (pyLower c)).filter (fun x => !isCombining x),
      goodChar d = true := by
  intro d hd
  cases h : nfkdTable.find? (fun p => p.1 == pyLower c) with
  | none =>
    have hn : nfkdChar (pyLower c) = [pyLower c] := by simp [nfkdChar, h]
    rw [hn, List.mem_filter] at hd
    have hcomb := hd.2
    have hdc : d = pyLower c := by simpa using hd.1
    subst hdc
    simp only [goodChar, Bool.and_eq_true, beq_iff_eq]
    exact ⟨⟨pyLower_idem c, hn⟩, hcomb⟩
  | some p =>
    have hp : nfkdChar (pyLower c) = p.2 := by simp [nfkdChar, h]
    have hp1 : p.1 = pyLower c := by simpa using List.find?_some h
    have hfix : pyLower p.1 = p.1 := by rw [hp1]; exact pyLower_idem c
    rw [hp] at hd
    exact nfkdTable_values_good p (List.mem_of_find?_eq_some h) hfix d hd

/-- The lower/decompose/filter stages fuse into one per-character pass. -/
theorem pipeline_flatMap (m : List Char) :
    (((m.map pyLower).flatMap nfkdChar).filter (fun c => !isCombining c))
      = m.flatMap (fun c => (nfkdChar (pyLower c)).filter (fun x => !isCombining x)) := by
  induction m with
  | nil => rfl
  | cons a t ih =>
    simp only [List.map_cons, List.flatMap_cons, List.filter_append, ih]

/-- Every character of a normalised string is pipeline-stable. -/
theorem normTextL_good (l : List Char) : ∀ d ∈ normTextL l, goodChar d = true := by
  intro d hd
  unfold normTextL at hd
  rw [pipeline_flatMap, List.mem_flatMap] at hd
  obtain ⟨c, _, hdc⟩ := hd
  exact nfkd_after_lower_good c d hdc

/-- A map by a function fixing every element is the identity. -/
theorem listMapFix {α : Type} (f : α → α) :
    ∀ l : List α, (∀ a ∈ l, f a = a) → l.map f = l := by
  intro l
  induction l with
  | nil => intro _; rfl
  | cons a t ih =>
    intro h
    rw [List.map_cons, h a (List.mem_cons_self a t),
      ih (fun b hb => h b (List.mem_cons_of_mem a hb))]

/-- A flat map sending every element to its singleton is the identity. -/
theorem listFlatMapFix {α : Type} (f : α → List α) :
    ∀ l : List α, (∀ a ∈ l, f a = [a]) → l.flatMap f = l := by
  intro l
  induction l with
  | nil => intro _; rfl
  | cons a t ih =>
    intro h
    rw [List.flatMap_cons, h a (List.mem_cons_self a t),
      ih (fun b hb => h b (List.mem_cons_of_mem a hb)), List.singleton_append]

/-- A filter by a predicate accepting every element is the identity. -/
theorem listFilterFix {α : Type} (p : α → Bool) :
    ∀ l : List α, (∀ a ∈ l, p a = true) → l.filter p = l := by
  intro l
  induction l with
  | nil => intro _; rfl
  | cons a t ih =>
    intro h
    rw [List.filter_cons_of_pos (h a (List.mem_cons_self a t)),
      ih (fun b hb => h b (List.mem_cons_of_mem a hb))]

/-- C6 counterexample: the normaliser is not idempotent — on `"a ◌́"`
(`a`, space, U+0301) the first pass yields `"a "` (the combining mark kept
the trailing space from being stripped, then was removed), and a second
pass strips that space. -/
theorem c6_counterexample :
    norm_text (some (norm_text (some "a ́"))) ≠ norm_text (some "a ́") := by
  decide

/-- C6 amended: the normaliser maps null to the empty string, identifies
`"Café"` with `"cafe"`, always returns a string (it is a total function),
and is idempotent on every input whose normalised form carries no leading
or trailing whitespace — but not on all inputs (see the counterexample). -/
theorem c6_normalizer_amended :
    norm_text none = ""
  ∧ norm_text (some "Café") = norm_text (some "cafe")
  ∧ (∀ s : String, pyStrip (normTextL s.data) = normTextL s.data →
       norm_text (some (norm_text (some s))) = norm_text (some s)) := by
  refine ⟨rfl, by decide, ?_⟩
  intro s hstrip
  have hgood := normTextL_good s.data
  have h1 : (normTextL s.data).map pyLower = normTextL s.data := by
    refine listMapFix _ _ (fun d hd => ?_)
    have hg := hgood d hd
    simp only [goodChar, Bool.and_eq_true, beq_iff_eq] at hg
    exact hg.1.1
  have h2 : (normTextL s.data).flatMap nfkdChar = normTextL s.data := by
    refine listFlatMapFix _ _ (fun d hd => ?_)
    have hg := hgood d hd
    simp only [goodChar, Bool.and_eq_true, beq_iff_eq] at hg
    exact hg.1.2
  have h3 : (normTextL s.data).filter (fun c => !isCombining c) = normTextL s.data := by
    refine listFilterFix _ _ (fun d hd => ?_)
    have hg := hgood d hd
    simp only [goodChar, Bool.and_eq_true, beq_iff_eq] at hg
    exact hg.2
  have hunfold : normTextL (normTextL s.data)
      = (((pyStrip (normTextL s.data)).map pyLower).flatMap nfkdChar).filter
          (fun c => !isCombining c) := rfl
  have hidem : normTextL (normTextL s.data) = normTextL s.data := by
    rw [hunfold, hstrip, h1, h2, h3]
  exact congrArg String.mk hidem

/-- Witness for the amended C6 at the accented input. -/
theorem c6_normalizer_amended_witness :
    norm_text (some (norm_text (some "Café"))) = norm_text (some "Café") :=
  c6_normalizer_amended.2.2 "Café" (by decide)
